import Mathlib

/-!
Verification of `src/05-objects-tasks.js` (core-js-101).

The file embeds the module's two claim-relevant components:

* the CSS selector builder `cssSelectorBuilder` (lines 113-221 of the
  source), modelled as a `SelectorState` record of string fragments.
  JavaScript stores the fragments in optional fields and tests them with
  truthiness (`if (this.el) ...`); an absent field and the empty string
  are indistinguishable under every access the source performs, so each
  fragment is modelled as a `String` whose empty value means "absent".
  The two `throw new Error(...)` sites are modelled as `Except` errors
  tagged by which of the two message strings (`err1` / `err2`) is thrown.

* the JSON helpers `getJSON` / `fromJSON` (lines 38-56), which delegate
  to the host's `JSON.stringify` / `JSON.parse` builtins.  Those builtins
  are not part of the repository source, so they are modelled from the
  spec as a structural JSON codec (printer and parser over `List Char`),
  with numbers restricted to integers.
-/

namespace CoreJs

/-! ## Selector builder: data model -/

/-- The two error conditions of the builder.  The source throws
`new Error(err1)` for duplicated element/id/pseudo-element parts and
`new Error(err2)` for parts appended out of canonical order; the spec
names these `DuplicateSelectorPartError` and `OutOfOrderSelectorPartError`. -/
inductive BuilderError where
  | duplicateSelectorPart : BuilderError
  | outOfOrderSelectorPart : BuilderError
deriving DecidableEq, Repr

/-- Source line 114: the message thrown for duplicate element/id/pseudo-element. -/
def err1 : String := "Element, id and pseudo-element should not occur more then one time inside the selector"

/-- Source line 115: the message thrown for out-of-order selector parts. -/
def err2 : String := "Selector parts should be arranged in the following order: element, id, class, attribute, pseudo-class, pseudo-element"

/-- The message carried by each modelled error. -/
def BuilderError.message : BuilderError → String
  | BuilderError.duplicateSelectorPart => err1
  | BuilderError.outOfOrderSelectorPart => err2

/-- The accumulator object built by `cssSelectorBuilder`.  Field names are the
source's own (`el`, `aidi`, `cl`, `att`, `psc`, `pse`, `item`); `""` models a
field that is absent or empty, which JavaScript truthiness cannot tell apart. -/
structure SelectorState where
  el : String := ""
  aidi : String := ""
  cl : String := ""
  att : String := ""
  psc : String := ""
  pse : String := ""
  item : String := ""
deriving DecidableEq, Repr

/-- The initial builder object: no fragment fields set. -/
def cssSelectorBuilder : SelectorState := {}

/-- The source's repeated append pattern
`if (!items.f) { items.f = x } else { items.f += x }`:
initialize the field when falsy, otherwise concatenate onto it. -/
def appendOrInit (field addition : String) : String :=
  if field ≠ "" then field ++ addition else addition

/-- Source lines 116-130 (`element`): throw `err1` if `el` is truthy, then
throw `err2` if `aidi` is truthy, else copy the state and append to `el`. -/
def SelectorState.element (s : SelectorState) (value : String) : Except BuilderError SelectorState :=
  if s.el ≠ "" then Except.error BuilderError.duplicateSelectorPart
  else if s.aidi ≠ "" then Except.error BuilderError.outOfOrderSelectorPart
  else Except.ok { s with el := appendOrInit s.el value }

/-- Source lines 132-146 (`id`): throw `err1` if `aidi` is truthy, then throw
`err2` if `cl` or `pse` is truthy (the source tests `this.cl || this.pse`,
i.e. class or pseudo-ELEMENT), else append `"#" + value` to `aidi`. -/
def SelectorState.id (s : SelectorState) (value : String) : Except BuilderError SelectorState :=
  if s.aidi ≠ "" then Except.error BuilderError.duplicateSelectorPart
  else if s.cl ≠ "" ∨ s.pse ≠ "" then Except.error BuilderError.outOfOrderSelectorPart
  else Except.ok { s with aidi := appendOrInit s.aidi ("#" ++ value) }

/-- Source lines 148-159 (`class`): throw `err2` if `att` is truthy, else
append `"." + value` to `cl`. -/
def SelectorState.«class» (s : SelectorState) (value : String) : Except BuilderError SelectorState :=
  if s.att ≠ "" then Except.error BuilderError.outOfOrderSelectorPart
  else Except.ok { s with cl := appendOrInit s.cl ("." ++ value) }

/-- Source lines 161-172 (`attr`): throw `err2` if `psc` is truthy, else
append `"[" + value + "]"` to `att`. -/
def SelectorState.attr (s : SelectorState) (value : String) : Except BuilderError SelectorState :=
  if s.psc ≠ "" then Except.error BuilderError.outOfOrderSelectorPart
  else Except.ok { s with att := appendOrInit s.att ("[" ++ value ++ "]") }

/-- Source lines 174-185 (`pseudoClass`): throw `err2` if `pse` is truthy,
else append `":" + value` to `psc`. -/
def SelectorState.pseudoClass (s : SelectorState) (value : String) : Except BuilderError SelectorState :=
  if s.pse ≠ "" then Except.error BuilderError.outOfOrderSelectorPart
  else Except.ok { s with psc := appendOrInit s.psc (":" ++ value) }

/-- Source lines 187-198 (`pseudoElement`): throw `err1` if `pse` is truthy,
else append `"::" + value` to `pse`. -/
def SelectorState.pseudoElement (s : SelectorState) (value : String) : Except BuilderError SelectorState :=
  if s.pse ≠ "" then Except.error BuilderError.duplicateSelectorPart
  else Except.ok { s with pse := appendOrInit s.pse ("::" ++ value) }

/-- One step of the source's render loop (`if (this.f) res += this.f`). -/
def addIf (res frag : String) : String :=
  if frag ≠ "" then res ++ frag else res

/-- Source lines 210-220 (`stringify`): return `item` verbatim when truthy,
otherwise accumulate the six fragments in the source's fixed order. -/
def SelectorState.stringify (s : SelectorState) : String :=
  if s.item ≠ "" then s.item
  else addIf (addIf (addIf (addIf (addIf (addIf "" s.el) s.aidi) s.cl) s.att) s.psc) s.pse

/-- Source lines 200-209 (`combine`): copy the state, render both arguments,
join with single spaces around the combinator, and initialize-or-append the
result onto `item`. -/
def SelectorState.combine (s : SelectorState) (selector1 : SelectorState) (combinator : String) (selector2 : SelectorState) : SelectorState :=
  { s with item := appendOrInit s.item (selector1.stringify ++ " " ++ combinator ++ " " ++ selector2.stringify) }

/-! ## JSON codec

`getJSON` (source lines 38-40) and `fromJSON` (source lines 54-56) delegate
to the host's `JSON.stringify` and `JSON.parse` builtins, which are not part
of the repository source.  The builtins are therefore modelled from the
spec: a structural value type (`Json`), a printer and a fuel-indexed parser
over `List Char`.  Numbers are restricted to integers (host numbers are
floating point); strings escape the quote and backslash characters. -/

/-- Modelled from the spec: the structurally-serializable record values the
codec exchanges ("Arrays serialize as ordered sequences; objects as
unordered field mappings").  Numbers are restricted to integers. -/
inductive Json where
  | null : Json
  | bool : Bool → Json
  | num : Int → Json
  | str : String → Json
  | arr : List Json → Json
  | obj : List (String × Json) → Json

/-- The double-quote character. -/
def quoteC : Char := Char.ofNat 34

/-- The backslash character. -/
def backslashC : Char := Char.ofNat 92

/-- The opening curly bracket character. -/
def lcurlC : Char := Char.ofNat 123

/-- The closing curly bracket character. -/
def rcurlC : Char := Char.ofNat 125

/-- Escape one character of a string literal: quote and backslash are
preceded by a backslash, all other characters pass through. -/
def escChar (c : Char) : List Char :=
  if c = quoteC ∨ c = backslashC then [backslashC, c] else [c]

/-- Escape a character list. -/
def escList : List Char → List Char
  | [] => []
  | c :: cs => escChar c ++ escList cs

/-- Decimal digits of a natural number, most significant first. -/
def printNat (n : Nat) : List Char :=
  if n = 0 then ['0'] else ((Nat.digits 10 n).map Nat.digitChar).reverse

/-- Decimal form of an integer. -/
def printInt : Int → List Char
  | Int.ofNat n => printNat n
  | Int.negSucc m => '-' :: printNat (m + 1)

mutual

/-- Modelled from the spec: serialize a `Json` value (the `JSON.stringify`
builtin used by `getJSON`). -/
def printJson : Json → List Char
  | Json.null => ['n', 'u', 'l', 'l']
  | Json.bool true => ['t', 'r', 'u', 'e']
  | Json.bool false => ['f', 'a', 'l', 's', 'e']
  | Json.num i => printInt i
  | Json.str s => quoteC :: escList s.data ++ [quoteC]
  | Json.arr [] => ['[', ']']
  | Json.arr (x :: xs) => '[' :: printArrItems x xs ++ [']']
  | Json.obj [] => [lcurlC, rcurlC]
  | Json.obj (kv :: kvs) => lcurlC :: printObjItems kv kvs ++ [rcurlC]
termination_by v => sizeOf v

/-- Comma-separated serialization of a nonempty array's elements. -/
def printArrItems : Json → List Json → List Char
  | x, [] => printJson x
  | x, y :: ys => printJson x ++ ',' :: printArrItems y ys
termination_by x xs => 1 + sizeOf x + sizeOf xs

/-- Comma-separated serialization of a nonempty object's fields. -/
def printObjItems : String × Json → List (String × Json) → List Char
  | kv, [] => printKV kv
  | kv, kv2 :: kvs => printKV kv ++ ',' :: printObjItems kv2 kvs
termination_by kv kvs => 1 + sizeOf kv + sizeOf kvs

/-- Serialization of one object field: quoted key, colon, value. -/
def printKV : String × Json → List Char
  | (k, v) => quoteC :: escList k.data ++ quoteC :: ':' :: printJson v
termination_by kv => sizeOf kv

end

/-- Consume an expected literal run of characters. -/
def eat : List Char → List Char → Option (List Char)
  | [], cs => some cs
  | _ :: _, [] => none
  | p :: ps, c :: cs => if c = p then eat ps cs else none

/-- Parse the body of a string literal up to its closing quote, undoing the
backslash escapes. -/
def parseStrBody : List Char → Option (List Char × List Char)
  | [] => none
  | c :: cs =>
    if c = quoteC then some ([], cs)
    else if c = backslashC then
      match cs with
      | [] => none
      | c2 :: cs2 => (parseStrBody cs2).map (fun p => (c2 :: p.1, p.2))
    else (parseStrBody cs).map (fun p => (c :: p.1, p.2))

/-- Consume a maximal run of decimal digits, folding them onto an
accumulator. -/
def parseDigits : List Char → Nat → Nat × List Char
  | [], acc => (acc, [])
  | c :: cs, acc =>
    if c.isDigit then parseDigits cs (acc * 10 + (c.toNat - 48)) else (acc, c :: cs)

/-- Parse a nonempty run of decimal digits as a natural number. -/
def parseNatNum (cs : List Char) : Option (Nat × List Char) :=
  match cs with
  | [] => none
  | c :: _ => if c.isDigit then some (parseDigits cs 0) else none

mutual

/-- Modelled from the spec: parse one `Json` value off the front of the
input (the `JSON.parse` builtin used by `fromJSON`), with a fuel bound on
recursion depth. -/
def parseValue : Nat → List Char → Option (Json × List Char)
  | 0, _ => none
  | _ + 1, [] => none
  | fuel + 1, c :: cs =>
    if c = 'n' then (eat ['u', 'l', 'l'] cs).map (fun r => (Json.null, r))
    else if c = 't' then (eat ['r', 'u', 'e'] cs).map (fun r => (Json.bool true, r))
    else if c = 'f' then (eat ['a', 'l', 's', 'e'] cs).map (fun r => (Json.bool false, r))
    else if c = quoteC then (parseStrBody cs).map (fun p => (Json.str (String.mk p.1), p.2))
    else if c = '-' then (parseNatNum cs).map (fun p => (Json.num (-(p.1 : Int)), p.2))
    else if c = '[' then
      match cs with
      | [] => none
      | d :: cs2 =>
        if d = ']' then some (Json.arr [], cs2)
        else (parseArrItems fuel cs).map (fun p => (Json.arr p.1, p.2))
    else if c = lcurlC then
      match cs with
      | [] => none
      | d :: cs2 =>
        if d = rcurlC then some (Json.obj [], cs2)
        else (parseObjItems fuel cs).map (fun p => (Json.obj p.1, p.2))
    else if c.isDigit then (parseNatNum (c :: cs)).map (fun p => (Json.num (p.1 : Int), p.2))
    else none
termination_by fuel _ => fuel

/-- Parse the comma-separated elements of a nonempty array, including the
closing square bracket. -/
def parseArrItems : Nat → List Char → Option (List Json × List Char)
  | 0, _ => none
  | fuel + 1, cs =>
    match parseValue fuel cs with
    | none => none
    | some (v, rest) =>
      match rest with
      | [] => none
      | c :: r =>
        if c = ']' then some ([v], r)
        else if c = ',' then (parseArrItems fuel r).map (fun p => (v :: p.1, p.2))
        else none
termination_by fuel _ => fuel

/-- Parse the comma-separated fields of a nonempty object, including the
closing curly bracket. -/
def parseObjItems : Nat → List Char → Option (List (String × Json) × List Char)
  | 0, _ => none
  | fuel + 1, cs =>
    match cs with
    | [] => none
    | c :: cs1 =>
      if c = quoteC then
        match parseStrBody cs1 with
        | none => none
        | some (k, cs2) =>
          match cs2 with
          | [] => none
          | c2 :: cs3 =>
            if c2 = ':' then
              match parseValue fuel cs3 with
              | none => none
              | some (v, rest) =>
                match rest with
                | [] => none
                | c3 :: r =>
                  if c3 = rcurlC then some ([(String.mk k, v)], r)
                  else if c3 = ',' then
                    (parseObjItems fuel r).map (fun p => ((String.mk k, v) :: p.1, p.2))
                  else none
            else none
      else none
termination_by fuel _ => fuel

end

/-- Modelled from the spec: the `JSON.stringify` builtin on `Json` values. -/
def jsonStringify (v : Json) : String := String.mk (printJson v)

/-- Modelled from the spec: the `JSON.parse` builtin; fails (`none`, the
spec's `ParseError`) unless the whole text is one serialized value. -/
def jsonParse (s : String) : Option Json :=
  match parseValue (s.data.length + 1) s.data with
  | some (v, []) => some v
  | _ => none

/-- Source lines 38-40: `getJSON(obj)` returns `JSON.stringify(obj)`. -/
def getJSON (obj : Json) : String := jsonStringify obj

/-- The result of `Object.assign(Object.create(proto), fields)`: a value
whose capability set (prototype) is `proto` and whose own data fields are
`fields`. -/
structure DecodedObject (Caps : Type) where
  proto : Caps
  fields : Json

/-- Source lines 54-56: `fromJSON(proto, json)` returns
`Object.assign(Object.create(proto), JSON.parse(json))`; a parse failure
propagates (`none`). -/
def fromJSON {Caps : Type} (proto : Caps) (json : String) : Option (DecodedObject Caps) :=
  (jsonParse json).map (fun fields => { proto := proto, fields := fields })

/-- A character list that does not begin with a decimal digit: the
condition under which the number parser will not consume into it. -/
def NoDigit : List Char → Prop
  | [] => True
  | c :: _ => c.isDigit = false

/-! ## Helper lemmas about strings and the builder definitions -/

theorem data_append (a b : String) : (a ++ b).data = a.data ++ b.data := rfl

theorem eq_empty_iff_data (s : String) : s = "" ↔ s.data = [] := by
  constructor
  · intro h; rw [h]
  · intro h; cases s with
    | mk d => cases h; rfl

theorem append_empty_str (s : String) : s ++ "" = s := by
  cases s with
  | mk d =>
    apply String.ext
    rw [data_append]
    simp

theorem empty_append_str (s : String) : "" ++ s = s := by
  cases s with
  | mk d =>
    apply String.ext
    rw [data_append]
    simp [String.data]

theorem appendOrInit_eq (field addition : String) :
    appendOrInit field addition = field ++ addition := by
  unfold appendOrInit
  by_cases h : field = ""
  · simp [h, empty_append_str]
  · simp [h]

theorem addIf_eq (res frag : String) : addIf res frag = res ++ frag := by
  unfold addIf
  by_cases h : frag = ""
  · simp [h, append_empty_str]
  · simp [h]

theorem stringify_building (s : SelectorState) (h : s.item = "") :
    s.stringify = s.el ++ s.aidi ++ s.cl ++ s.att ++ s.psc ++ s.pse := by
  unfold SelectorState.stringify
  rw [if_neg (by simp [h])]
  rw [addIf_eq, addIf_eq, addIf_eq, addIf_eq, addIf_eq, addIf_eq, empty_append_str]

theorem append_ne_empty_left (a b : String) (h : a ≠ "") : a ++ b ≠ "" := by
  intro hc
  apply h
  have hd : (a ++ b).data = [] := (eq_empty_iff_data _).mp hc
  rw [data_append] at hd
  exact (eq_empty_iff_data a).mpr (List.append_eq_nil.mp hd).1

theorem str_append_assoc (a b c : String) : a ++ b ++ c = a ++ (b ++ c) := by
  apply String.ext
  rw [data_append, data_append, data_append, data_append]
  exact List.append_assoc a.data b.data c.data

theorem combined_text_ne_empty (a c b : String) : a ++ " " ++ c ++ " " ++ b ≠ "" := by
  intro hc
  have hd : (a ++ " " ++ c ++ " " ++ b).data = [] := (eq_empty_iff_data _).mp hc
  rw [data_append, data_append, data_append, data_append] at hd
  have h2 := (List.append_eq_nil.mp hd).1
  have h3 := (List.append_eq_nil.mp h2).1
  have h4 := (List.append_eq_nil.mp h3).1
  have h5 := (List.append_eq_nil.mp h4).2
  exact absurd h5 (by decide)

/-! ## Claim theorems: selector builder -/

/-- C1: for every SelectorState with no precomputed combination text,
`stringify` returns the concatenation, in the fixed canonical order
element, id, class, attribute, pseudo-class, pseudo-element, of exactly
the fragment parts that are present, with no separators between kinds;
each successful append stored its fragment with its marker (id `#value`,
class `.value`, attribute `[value]`, pseudo-class `:value`, pseudo-element
`::value`, element bare); and the spec's example
`id('main').class('container').class('editable').stringify()` renders as
`#main.container.editable`. -/
theorem c1_stringify_canonical_order :
    (∀ s : SelectorState, s.item = "" →
      s.stringify = s.el ++ s.aidi ++ s.cl ++ s.att ++ s.psc ++ s.pse) ∧
    (∀ (s t : SelectorState) (v : String), s.element v = Except.ok t → t.el = s.el ++ v) ∧
    (∀ (s t : SelectorState) (v : String), s.id v = Except.ok t → t.aidi = s.aidi ++ "#" ++ v) ∧
    (∀ (s t : SelectorState) (v : String), s.«class» v = Except.ok t → t.cl = s.cl ++ "." ++ v) ∧
    (∀ (s t : SelectorState) (v : String), s.attr v = Except.ok t → t.att = s.att ++ "[" ++ v ++ "]") ∧
    (∀ (s t : SelectorState) (v : String), s.pseudoClass v = Except.ok t → t.psc = s.psc ++ ":" ++ v) ∧
    (∀ (s t : SelectorState) (v : String), s.pseudoElement v = Except.ok t → t.pse = s.pse ++ "::" ++ v) ∧
    ((cssSelectorBuilder.id ("main")).bind (fun s => s.«class» ("container"))
      |>.bind (fun s => s.«class» ("editable"))
      |>.map SelectorState.stringify) = Except.ok ("#main.container.editable") := by
  refine ⟨fun s h => stringify_building s h, ?_, ?_, ?_, ?_, ?_, ?_, ?_⟩
  · intro s t v h
    unfold SelectorState.element at h
    split at h
    · exact absurd h (by simp)
    split at h
    · exact absurd h (by simp)
    injection h with h2
    subst h2
    simp [appendOrInit_eq]
  · intro s t v h
    unfold SelectorState.id at h
    split at h
    · exact absurd h (by simp)
    split at h
    · exact absurd h (by simp)
    injection h with h2
    subst h2
    simp [appendOrInit_eq, str_append_assoc]
  · intro s t v h
    unfold SelectorState.«class» at h
    split at h
    · exact absurd h (by simp)
    injection h with h2
    subst h2
    simp [appendOrInit_eq, str_append_assoc]
  · intro s t v h
    unfold SelectorState.attr at h
    split at h
    · exact absurd h (by simp)
    injection h with h2
    subst h2
    simp [appendOrInit_eq, str_append_assoc]
  · intro s t v h
    unfold SelectorState.pseudoClass at h
    split at h
    · exact absurd h (by simp)
    injection h with h2
    subst h2
    simp [appendOrInit_eq, str_append_assoc]
  · intro s t v h
    unfold SelectorState.pseudoElement at h
    split at h
    · exact absurd h (by simp)
    injection h with h2
    subst h2
    simp [appendOrInit_eq, str_append_assoc]
  · rfl

/-- Witness for C1: the stringify shape and the id marker rule evaluated at
concrete states, obtained by applying `c1_stringify_canonical_order`. -/
theorem c1_witness :
    ({ el := ("a"), aidi := ("#b") } : SelectorState).stringify
      = ("a") ++ ("#b") ++ ("") ++ ("") ++ ("") ++ ("") ∧
    ({ aidi := ("#y") } : SelectorState).aidi = cssSelectorBuilder.aidi ++ ("#") ++ ("y") := by
  refine ⟨c1_stringify_canonical_order.1 { el := ("a"), aidi := ("#b") } rfl, ?_⟩
  exact c1_stringify_canonical_order.2.2.1 cssSelectorBuilder { aidi := ("#y") } ("y") rfl

/-- C2: appending an element when an element fragment is present, an id when
an id fragment is present, or a pseudo-element when a pseudo-element fragment
is present, fails with the duplicate error; the check precedes the append, so
no new state (hence no new fragment) is produced. -/
theorem c2_duplicate_checks :
    ∀ (s : SelectorState) (v : String),
      (s.el ≠ "" → s.element v = Except.error BuilderError.duplicateSelectorPart) ∧
      (s.aidi ≠ "" → s.id v = Except.error BuilderError.duplicateSelectorPart) ∧
      (s.pse ≠ "" → s.pseudoElement v = Except.error BuilderError.duplicateSelectorPart) := by
  intro s v
  refine ⟨?_, ?_, ?_⟩ <;> intro h
  · unfold SelectorState.element; simp [h]
  · unfold SelectorState.id; simp [h]
  · unfold SelectorState.pseudoElement; simp [h]

/-- Witness for C2: all three duplicate checks fire on a concrete state that
has an element, an id and a pseudo-element fragment. -/
theorem c2_witness :
    (({ el := ("a"), aidi := ("#b"), pse := ("::c") } : SelectorState).element ("x")
        = Except.error BuilderError.duplicateSelectorPart) ∧
    (({ el := ("a"), aidi := ("#b"), pse := ("::c") } : SelectorState).id ("x")
        = Except.error BuilderError.duplicateSelectorPart) ∧
    (({ el := ("a"), aidi := ("#b"), pse := ("::c") } : SelectorState).pseudoElement ("x")
        = Except.error BuilderError.duplicateSelectorPart) := by
  have h := c2_duplicate_checks ({ el := ("a"), aidi := ("#b"), pse := ("::c") }) ("x")
  exact ⟨h.1 (by decide), h.2.1 (by decide), h.2.2 (by decide)⟩

/-- C3 counterexample: on a state holding only the element fragment `a`
(no id, class, or other fragments), appending a second element name `b`
does NOT succeed with concatenation; the source throws `err1`
(the duplicate error) because `element` tests `this.el` first. -/
theorem c3_counterexample :
    ({ el := ("a") } : SelectorState).element ("b")
      = Except.error BuilderError.duplicateSelectorPart ∧
    ∀ t : SelectorState, ({ el := ("a") } : SelectorState).element ("b") ≠ Except.ok t := by
  exact ⟨rfl, fun t h => Except.noConfusion h⟩

/-- C3 amended: appending a second element name to a SelectorState whose
element fragment is non-empty raises the duplicate error, even when no id,
class, or other fragments are present; the second name is never concatenated
(the source's concatenation branch for `el` is unreachable). -/
theorem c3_amended_second_element_errors :
    ∀ (s : SelectorState) (v : String), s.el ≠ "" →
      s.element v = Except.error BuilderError.duplicateSelectorPart := by
  intro s v h
  unfold SelectorState.element
  simp [h]

/-- Witness for the amended C3 at the concrete state `element('a')`. -/
theorem c3_witness :
    ({ el := ("a") } : SelectorState).element ("x")
      = Except.error BuilderError.duplicateSelectorPart :=
  c3_amended_second_element_errors ({ el := ("a") }) ("x") (by decide)

/-- C4 counterexample: the claim's order rule for `id` is wrong on both
sides.  With only a pseudo-class fragment present the claim demands an
order error, but the source accepts the append (it never tests `psc`);
with only a pseudo-element fragment present the claim forbids an order
error, but the source raises one (it tests `pse`). -/
theorem c4_counterexample :
    ({ psc := (":focus") } : SelectorState).id ("x")
      = Except.ok ({ aidi := ("#x"), psc := (":focus") } : SelectorState) ∧
    ({ pse := ("::after") } : SelectorState).id ("x")
      = Except.error BuilderError.outOfOrderSelectorPart := by
  exact ⟨rfl, rfl⟩

/-- C4 amended: for every SelectorState with no id fragment yet, appending an
id raises the out-of-order error exactly when a class fragment or a
PSEUDO-ELEMENT fragment is already present (the source tests
`this.cl || this.pse`); in particular it raises after `class('x')`, and it
does not raise when only attribute or pseudo-class fragments are present. -/
theorem c4_amended_id_order_check :
    ∀ (s : SelectorState) (v : String), s.aidi = "" →
      (s.id v = Except.error BuilderError.outOfOrderSelectorPart ↔
        (s.cl ≠ "" ∨ s.pse ≠ "")) := by
  intro s v h
  unfold SelectorState.id
  by_cases h1 : s.cl = "" <;> by_cases h2 : s.pse = "" <;> simp [h, h1, h2]

/-- Witness for the amended C4: after `class('x')` the id append is an order
error, and with only an attribute fragment it is not. -/
theorem c4_witness :
    (({ cl := (".x") } : SelectorState).id ("y")
      = Except.error BuilderError.outOfOrderSelectorPart) ∧
    ¬ (({ att := ("[q]") } : SelectorState).id ("y")
      = Except.error BuilderError.outOfOrderSelectorPart) := by
  constructor
  · exact (c4_amended_id_order_check ({ cl := (".x") }) ("y") rfl).mpr (Or.inl (by decide))
  · intro hc
    have h := (c4_amended_id_order_check ({ att := ("[q]") }) ("y") rfl).mp hc
    rcases h with h | h <;> exact absurd rfl h

/-- C5: the remaining order checks are exactly the source's asymmetric
matrix: `element` is out-of-order exactly when no element fragment is set
and an id fragment is present; `class` exactly when an attribute fragment
is present; `attr` exactly when a pseudo-class fragment is present; and
`pseudoClass` exactly when a pseudo-element fragment is present. -/
theorem c5_order_check_matrix :
    ∀ (s : SelectorState) (v : String),
      (s.element v = Except.error BuilderError.outOfOrderSelectorPart ↔
        (s.el = "" ∧ s.aidi ≠ "")) ∧
      (s.«class» v = Except.error BuilderError.outOfOrderSelectorPart ↔ s.att ≠ "") ∧
      (s.attr v = Except.error BuilderError.outOfOrderSelectorPart ↔ s.psc ≠ "") ∧
      (s.pseudoClass v = Except.error BuilderError.outOfOrderSelectorPart ↔ s.pse ≠ "") := by
  intro s v
  refine ⟨?_, ?_, ?_, ?_⟩
  · unfold SelectorState.element
    by_cases h1 : s.el = "" <;> by_cases h2 : s.aidi = "" <;> simp [h1, h2]
  · unfold SelectorState.«class»
    by_cases h : s.att = "" <;> simp [h]
  · unfold SelectorState.attr
    by_cases h : s.psc = "" <;> simp [h]
  · unfold SelectorState.pseudoClass
    by_cases h : s.pse = "" <;> simp [h]

/-- C10: `stringify` on the initial builder state, before any append or
combine, returns the empty string. -/
theorem c10_initial_stringify_empty : cssSelectorBuilder.stringify = "" := rfl

/-! ## Helper lemmas: success shapes and frames of the append operations -/

theorem combine_item (s l r : SelectorState) (c : String) :
    (s.combine l c r).item
      = s.item ++ (l.stringify ++ " " ++ c ++ " " ++ r.stringify) := by
  unfold SelectorState.combine
  exact appendOrInit_eq _ _

theorem stringify_combined (s : SelectorState) (h : s.item ≠ "") :
    s.stringify = s.item := by
  unfold SelectorState.stringify
  rw [if_pos h]

theorem element_ok_frame (s t : SelectorState) (v : String)
    (h : s.element v = Except.ok t) : t = { s with el := appendOrInit s.el v } := by
  unfold SelectorState.element at h
  split at h
  · exact absurd h (by simp)
  split at h
  · exact absurd h (by simp)
  injection h with h2
  exact h2.symm

theorem id_ok_frame (s t : SelectorState) (v : String)
    (h : s.id v = Except.ok t) :
    t = { s with aidi := appendOrInit s.aidi ("#" ++ v) } := by
  unfold SelectorState.id at h
  split at h
  · exact absurd h (by simp)
  split at h
  · exact absurd h (by simp)
  injection h with h2
  exact h2.symm

theorem class_ok_frame (s t : SelectorState) (v : String)
    (h : s.«class» v = Except.ok t) :
    t = { s with cl := appendOrInit s.cl ("." ++ v) } := by
  unfold SelectorState.«class» at h
  split at h
  · exact absurd h (by simp)
  injection h with h2
  exact h2.symm

theorem attr_ok_frame (s t : SelectorState) (v : String)
    (h : s.attr v = Except.ok t) :
    t = { s with att := appendOrInit s.att ("[" ++ v ++ "]") } := by
  unfold SelectorState.attr at h
  split at h
  · exact absurd h (by simp)
  injection h with h2
  exact h2.symm

theorem pseudoClass_ok_frame (s t : SelectorState) (v : String)
    (h : s.pseudoClass v = Except.ok t) :
    t = { s with psc := appendOrInit s.psc (":" ++ v) } := by
  unfold SelectorState.pseudoClass at h
  split at h
  · exact absurd h (by simp)
  injection h with h2
  exact h2.symm

theorem pseudoElement_ok_frame (s t : SelectorState) (v : String)
    (h : s.pseudoElement v = Except.ok t) :
    t = { s with pse := appendOrInit s.pse ("::" ++ v) } := by
  unfold SelectorState.pseudoElement at h
  split at h
  · exact absurd h (by simp)
  injection h with h2
  exact h2.symm

theorem element_ok_of (s : SelectorState) (v : String) (h1 : s.el = "") (h2 : s.aidi = "") :
    s.element v = Except.ok { s with el := appendOrInit s.el v } := by
  unfold SelectorState.element
  simp [h1, h2]

theorem id_ok_of (s : SelectorState) (v : String) (h1 : s.aidi = "") (h2 : s.cl = "")
    (h3 : s.pse = "") :
    s.id v = Except.ok { s with aidi := appendOrInit s.aidi ("#" ++ v) } := by
  unfold SelectorState.id
  simp [h1, h2, h3]

theorem class_ok_of (s : SelectorState) (v : String) (h : s.att = "") :
    s.«class» v = Except.ok { s with cl := appendOrInit s.cl ("." ++ v) } := by
  unfold SelectorState.«class»
  simp [h]

theorem attr_ok_of (s : SelectorState) (v : String) (h : s.psc = "") :
    s.attr v = Except.ok { s with att := appendOrInit s.att ("[" ++ v ++ "]") } := by
  unfold SelectorState.attr
  simp [h]

theorem pseudoClass_ok_of (s : SelectorState) (v : String) (h : s.pse = "") :
    s.pseudoClass v = Except.ok { s with psc := appendOrInit s.psc (":" ++ v) } := by
  unfold SelectorState.pseudoClass
  simp [h]

theorem pseudoElement_ok_of (s : SelectorState) (v : String) (h : s.pse = "") :
    s.pseudoElement v = Except.ok { s with pse := appendOrInit s.pse ("::" ++ v) } := by
  unfold SelectorState.pseudoElement
  simp [h]

/-- C6: combining two states on the builder entry point renders as
`left <space> combinator <space> right`, with the combinator taken verbatim;
and appending any further fragment to the combined state succeeds but leaves
`stringify` unchanged, because the precomputed `item` text is returned
verbatim. -/
theorem c6_combine_stringify :
    ∀ (l r : SelectorState) (c : String),
      ((cssSelectorBuilder.combine l c r).stringify
        = l.stringify ++ " " ++ c ++ " " ++ r.stringify) ∧
      (∀ v, ∃ t, (cssSelectorBuilder.combine l c r).element v = Except.ok t ∧
        t.stringify = (cssSelectorBuilder.combine l c r).stringify) ∧
      (∀ v, ∃ t, (cssSelectorBuilder.combine l c r).id v = Except.ok t ∧
        t.stringify = (cssSelectorBuilder.combine l c r).stringify) ∧
      (∀ v, ∃ t, (cssSelectorBuilder.combine l c r).«class» v = Except.ok t ∧
        t.stringify = (cssSelectorBuilder.combine l c r).stringify) ∧
      (∀ v, ∃ t, (cssSelectorBuilder.combine l c r).attr v = Except.ok t ∧
        t.stringify = (cssSelectorBuilder.combine l c r).stringify) ∧
      (∀ v, ∃ t, (cssSelectorBuilder.combine l c r).pseudoClass v = Except.ok t ∧
        t.stringify = (cssSelectorBuilder.combine l c r).stringify) ∧
      (∀ v, ∃ t, (cssSelectorBuilder.combine l c r).pseudoElement v = Except.ok t ∧
        t.stringify = (cssSelectorBuilder.combine l c r).stringify) := by
  intro l r c
  have hitem : (cssSelectorBuilder.combine l c r).item
      = l.stringify ++ " " ++ c ++ " " ++ r.stringify := by
    rw [combine_item]
    exact empty_append_str _
  have hne : (cssSelectorBuilder.combine l c r).item ≠ "" := by
    rw [hitem]
    exact combined_text_ne_empty l.stringify c r.stringify
  have hstr : (cssSelectorBuilder.combine l c r).stringify
      = l.stringify ++ " " ++ c ++ " " ++ r.stringify := by
    rw [stringify_combined _ hne, hitem]
  refine ⟨hstr, ?_, ?_, ?_, ?_, ?_, ?_⟩
  · intro v
    refine ⟨_, element_ok_of _ v rfl rfl, ?_⟩
    rw [stringify_combined _ hne]
    exact stringify_combined _ hne
  · intro v
    refine ⟨_, id_ok_of _ v rfl rfl rfl, ?_⟩
    rw [stringify_combined _ hne]
    exact stringify_combined _ hne
  · intro v
    refine ⟨_, class_ok_of _ v rfl, ?_⟩
    rw [stringify_combined _ hne]
    exact stringify_combined _ hne
  · intro v
    refine ⟨_, attr_ok_of _ v rfl, ?_⟩
    rw [stringify_combined _ hne]
    exact stringify_combined _ hne
  · intro v
    refine ⟨_, pseudoClass_ok_of _ v rfl, ?_⟩
    rw [stringify_combined _ hne]
    exact stringify_combined _ hne
  · intro v
    refine ⟨_, pseudoElement_ok_of _ v rfl, ?_⟩
    rw [stringify_combined _ hne]
    exact stringify_combined _ hne

/-- C7 counterexample: combining a state whose precomputed text is already
set does NOT replace that text.  Concretely, combining `a` and `b` with `~`
and then combining the result with `c`, `+`, `d` renders `a ~ bc + d`: the
old combination text with the new one appended, not only the new
combination `c + d`. -/
theorem c7_counterexample :
    ((cssSelectorBuilder.combine { el := ("a") } ("~") { el := ("b") }).combine
        { el := ("c") } ("+") { el := ("d") }).stringify = ("a ~ bc + d") ∧
    ({ el := ("c") } : SelectorState).stringify ++ " " ++ ("+") ++ " "
        ++ ({ el := ("d") } : SelectorState).stringify = ("c + d") ∧
    ("a ~ bc + d") ≠ ("c + d") := by
  refine ⟨rfl, rfl, by decide⟩

/-- C7 amended: invoking `combine` on a state whose precomputed combination
text is already set APPENDS the newly computed `<left> <combinator> <right>`
text onto the existing precomputed text, so the descendant state's
`stringify` returns the old text followed by the new combination. -/
theorem c7_amended_combine_appends :
    ∀ (s l r : SelectorState) (c : String), s.item ≠ "" →
      (s.combine l c r).item
          = s.item ++ (l.stringify ++ " " ++ c ++ " " ++ r.stringify) ∧
      (s.combine l c r).stringify
          = s.item ++ (l.stringify ++ " " ++ c ++ " " ++ r.stringify) := by
  intro s l r c h
  have hi := combine_item s l r c
  have hne : (s.combine l c r).item ≠ "" := by
    rw [hi]
    exact append_ne_empty_left _ _ h
  exact ⟨hi, by rw [stringify_combined _ hne, hi]⟩

/-- Witness for the amended C7 at a concrete state with precomputed text. -/
theorem c7_witness :
    (({ item := ("x") } : SelectorState).combine cssSelectorBuilder ("+")
        cssSelectorBuilder).item
      = ("x") ++ (cssSelectorBuilder.stringify ++ " " ++ ("+") ++ " "
        ++ cssSelectorBuilder.stringify) :=
  (c7_amended_combine_appends ({ item := ("x") }) cssSelectorBuilder
    cssSelectorBuilder ("+") (by decide)).1

/-- C8: every append operation that succeeds returns a structural copy of
the prior state with exactly its own field replaced (all other fields are
those of the state it was invoked on, unchanged), and `combine` returns a
structural copy with only `item` replaced; the invoked-on state itself is a
pure value and is never modified. -/
theorem c8_immutability_frame :
    ∀ (s t : SelectorState) (v : String),
      (s.element v = Except.ok t → t = { s with el := appendOrInit s.el v }) ∧
      (s.id v = Except.ok t → t = { s with aidi := appendOrInit s.aidi ("#" ++ v) }) ∧
      (s.«class» v = Except.ok t → t = { s with cl := appendOrInit s.cl ("." ++ v) }) ∧
      (s.attr v = Except.ok t → t = { s with att := appendOrInit s.att ("[" ++ v ++ "]") }) ∧
      (s.pseudoClass v = Except.ok t → t = { s with psc := appendOrInit s.psc (":" ++ v) }) ∧
      (s.pseudoElement v = Except.ok t → t = { s with pse := appendOrInit s.pse ("::" ++ v) }) ∧
      (∀ (l r : SelectorState) (c : String),
        s.combine l c r
          = { s with item := appendOrInit s.item (l.stringify ++ " " ++ c ++ " " ++ r.stringify) }) := by
  intro s t v
  exact ⟨element_ok_frame s t v, id_ok_frame s t v, class_ok_frame s t v,
    attr_ok_frame s t v, pseudoClass_ok_frame s t v, pseudoElement_ok_frame s t v,
    fun l r c => rfl⟩

/-- Witness for C8: the spec's branching example.  From `base = element('a')`
the two derivations `base.id('x')` and `base.class('y')` each see only their
own fragment: the first still has no class part and the second still has no
id part. -/
theorem c8_witness :
    (({ el := ("a") } : SelectorState).id ("x")
        = Except.ok { el := ("a"), aidi := ("#x") }) ∧
    (({ el := ("a") } : SelectorState).«class» ("y")
        = Except.ok { el := ("a"), cl := (".y") }) ∧
    ({ el := ("a"), aidi := ("#x") } : SelectorState).cl = ("") ∧
    ({ el := ("a"), cl := (".y") } : SelectorState).aidi = ("") := by
  have h1 := (c8_immutability_frame ({ el := ("a") })
    ({ el := ("a"), aidi := ("#x") }) ("x")).2.1 rfl
  have h2 := (c8_immutability_frame ({ el := ("a") })
    ({ el := ("a"), cl := (".y") }) ("y")).2.2.1 rfl
  exact ⟨rfl, rfl, congrArg SelectorState.cl h1, congrArg SelectorState.aidi h2⟩

theorem mk_data (s : String) : String.mk s.data = s := rfl

theorem eat_append (p cs : List Char) : eat p (p ++ cs) = some cs := by
  induction p with
  | nil => rfl
  | cons c ps ih => simp [eat, ih]

theorem noDigit_nil : NoDigit [] := trivial

theorem noDigit_cons (c : Char) (l : List Char) (h : c.isDigit = false) :
    NoDigit (c :: l) := h

theorem parseDigits_noDigit (cs : List Char) (acc : Nat) (h : NoDigit cs) :
    parseDigits cs acc = (acc, cs) := by
  cases cs with
  | nil => rfl
  | cons c t =>
    have hc : c.isDigit = false := h
    simp [parseDigits, hc]

theorem parseDigits_chars (L : List Char) (hL : ∀ c ∈ L, c.isDigit = true)
    (acc : Nat) (rest : List Char) (hr : NoDigit rest) :
    parseDigits (L ++ rest) acc
      = (List.foldl (fun a c => a * 10 + (c.toNat - 48)) acc L, rest) := by
  induction L generalizing acc with
  | nil => simpa using parseDigits_noDigit rest acc hr
  | cons c t ih =>
    have hc : c.isDigit = true := hL c (List.mem_cons_self c t)
    have ht : ∀ x ∈ t, x.isDigit = true := fun x hx => hL x (List.mem_cons_of_mem c hx)
    simp [parseDigits, hc, ih ht]

theorem digitChar_isDigit (d : Nat) (h : d < 10) : (Nat.digitChar d).isDigit = true := by
  interval_cases d <;> decide

theorem digitChar_toNat (d : Nat) (h : d < 10) : (Nat.digitChar d).toNat - 48 = d := by
  interval_cases d <;> decide

theorem foldl_digitChars (ds : List Nat) (h : ∀ d ∈ ds, d < 10) (acc : Nat) :
    List.foldl (fun a c => a * 10 + (c.toNat - 48)) acc ((ds.map Nat.digitChar).reverse)
      = acc * 10 ^ ds.length + Nat.ofDigits 10 ds := by
  induction ds generalizing acc with
  | nil => simp
  | cons d tl ih =>
    have hd : d < 10 := h d (List.mem_cons_self d tl)
    have htl : ∀ x ∈ tl, x < 10 := fun x hx => h x (List.mem_cons_of_mem d hx)
    rw [List.map_cons, List.reverse_cons, List.foldl_append, ih htl]
    simp only [List.foldl_cons, List.foldl_nil, digitChar_toNat d hd, Nat.ofDigits_cons,
      List.length_cons, pow_succ]
    ring

theorem printNat_all_digits (n : Nat) : ∀ c ∈ printNat n, c.isDigit = true := by
  intro c hc
  unfold printNat at hc
  by_cases h : n = 0
  · rw [if_pos h] at hc
    simp at hc
    rw [hc]
    decide
  · rw [if_neg h] at hc
    rw [List.mem_reverse, List.mem_map] at hc
    obtain ⟨d, hd, rfl⟩ := hc
    exact digitChar_isDigit d (Nat.digits_lt_base (by norm_num) hd)

theorem printNat_ne_nil (n : Nat) : printNat n ≠ [] := by
  unfold printNat
  by_cases h : n = 0
  · rw [if_pos h]
    simp
  · rw [if_neg h]
    simp [Nat.digits_ne_nil_iff_ne_zero.mpr h]

theorem printNat_head (n : Nat) :
    ∃ c t, printNat n = c :: t ∧ c.isDigit = true := by
  cases hpn : printNat n with
  | nil => exact absurd hpn (printNat_ne_nil n)
  | cons c t =>
    refine ⟨c, t, rfl, printNat_all_digits n c ?_⟩
    rw [hpn]
    exact List.mem_cons_self c t

theorem parseNatNum_printNat (n : Nat) (rest : List Char) (hr : NoDigit rest) :
    parseNatNum (printNat n ++ rest) = some (n, rest) := by
  obtain ⟨c, t, hct, hcd⟩ := printNat_head n
  rw [hct, List.cons_append]
  have hstep : parseNatNum (c :: (t ++ rest))
      = if c.isDigit then some (parseDigits (c :: (t ++ rest)) 0) else none := rfl
  rw [hstep, if_pos hcd]
  rw [← List.cons_append, ← hct]
  have hall := printNat_all_digits n
  rw [parseDigits_chars (printNat n) hall 0 rest hr]
  by_cases h : n = 0
  · subst h
    rw [show printNat 0 = ['0'] from rfl,
      show List.foldl (fun a c => a * 10 + (c.toNat - 48)) 0 ['0'] = 0 from by decide]
  · have hpn : printNat n = ((Nat.digits 10 n).map Nat.digitChar).reverse := by
      unfold printNat
      rw [if_neg h]
    rw [hpn, foldl_digitChars (Nat.digits 10 n)
      (fun d hd => Nat.digits_lt_base (by norm_num) hd) 0]
    simp [Nat.ofDigits_digits]

theorem parseStrBody_escList (l rest : List Char) :
    parseStrBody (escList l ++ quoteC :: rest) = some (l, rest) := by
  induction l with
  | nil =>
    show parseStrBody (quoteC :: rest) = some ([], rest)
    rw [parseStrBody.eq_def]
    simp
  | cons c t ih =>
    show parseStrBody ((escChar c ++ escList t) ++ quoteC :: rest) = some (c :: t, rest)
    by_cases hc : c = quoteC ∨ c = backslashC
    · rw [escChar, if_pos hc]
      simp only [List.cons_append, List.nil_append, List.append_assoc]
      rw [parseStrBody.eq_def]
      simp [(by decide : (backslashC = quoteC) = False), ih]
    · push_neg at hc
      rw [escChar, if_neg (by rw [not_or]; exact hc)]
      simp only [List.cons_append, List.nil_append, List.append_assoc]
      rw [parseStrBody.eq_def]
      simp [hc.1, hc.2, ih]

theorem isDigit_not_special (c : Char) (h : c.isDigit = true) :
    ((c = 'n') = False) ∧ ((c = 't') = False) ∧ ((c = 'f') = False) ∧
    ((c = quoteC) = False) ∧ ((c = '-') = False) ∧ ((c = '[') = False) ∧
    ((c = lcurlC) = False) := by
  refine ⟨?_, ?_, ?_, ?_, ?_, ?_, ?_⟩ <;>
    exact eq_false (fun hc => by rw [hc] at h; exact absurd h (by decide))

theorem printJson_head_ne_rbrack (v : Json) :
    ∃ c t, printJson v = c :: t ∧ (c = ']') = False := by
  cases v with
  | null => exact ⟨'n', ['u', 'l', 'l'], by simp [printJson], by decide⟩
  | bool b =>
    cases b with
    | true => exact ⟨'t', ['r', 'u', 'e'], by simp [printJson], by decide⟩
    | false => exact ⟨'f', ['a', 'l', 's', 'e'], by simp [printJson], by decide⟩
  | num i =>
    cases i with
    | ofNat n =>
      obtain ⟨c, t, hct, hcd⟩ := printNat_head n
      refine ⟨c, t, by simp [printJson, printInt, hct], ?_⟩
      exact eq_false (fun hc => by rw [hc] at hcd; exact absurd hcd (by decide))
    | negSucc m => exact ⟨'-', printNat (m + 1), by simp [printJson, printInt], by decide⟩
  | str s => exact ⟨quoteC, escList s.data ++ [quoteC], by simp [printJson], by decide⟩
  | arr xs =>
    cases xs with
    | nil => exact ⟨'[', [']'], by simp [printJson], by decide⟩
    | cons x xs =>
      exact ⟨'[', printArrItems x xs ++ [']'], by simp [printJson], by decide⟩
  | obj kvs =>
    cases kvs with
    | nil => exact ⟨lcurlC, [rcurlC], by simp [printJson], by decide⟩
    | cons kv kvs =>
      exact ⟨lcurlC, printObjItems kv kvs ++ [rcurlC], by simp [printJson], by decide⟩

theorem printArrItems_head (x : Json) (xs : List Json) :
    ∃ c t, printArrItems x xs = c :: t ∧ (c = ']') = False := by
  obtain ⟨c, t, hct, hne⟩ := printJson_head_ne_rbrack x
  cases xs with
  | nil => exact ⟨c, t, by simp [printArrItems, hct], hne⟩
  | cons y ys => exact ⟨c, t ++ ',' :: printArrItems y ys, by simp [printArrItems, hct], hne⟩

theorem printKV_eq (k : String) (v : Json) :
    printKV (k, v) = quoteC :: escList k.data ++ quoteC :: ':' :: printJson v := by
  simp [printKV]

theorem printObjItems_head (kv : String × Json) (kvs : List (String × Json)) :
    ∃ t, printObjItems kv kvs = quoteC :: t := by
  obtain ⟨k, v⟩ := kv
  cases kvs with
  | nil => exact ⟨escList k.data ++ quoteC :: ':' :: printJson v, by simp [printObjItems, printKV]⟩
  | cons kv2 kvs2 =>
    exact ⟨(escList k.data ++ quoteC :: ':' :: printJson v) ++ ',' :: printObjItems kv2 kvs2,
      by simp [printObjItems, printKV]⟩

theorem printJson_length_pos (v : Json) : 1 ≤ (printJson v).length := by
  obtain ⟨c, t, hct, _⟩ := printJson_head_ne_rbrack v
  rw [hct]
  simp

mutual

theorem parse_print (v : Json) (fuel : Nat) (rest : List Char)
    (hf : (printJson v).length ≤ fuel) (hr : NoDigit rest) :
    parseValue fuel (printJson v ++ rest) = some (v, rest) := by
  cases v with
  | null =>
    rw [show printJson Json.null = ['n', 'u', 'l', 'l'] from by simp [printJson]] at hf ⊢
    cases fuel with
    | zero => simp at hf
    | succ f =>
      rw [List.cons_append, parseValue.eq_def]
      simp [eat]
  | bool b =>
    cases b with
    | true =>
      rw [show printJson (Json.bool true) = ['t', 'r', 'u', 'e'] from by simp [printJson]] at hf ⊢
      cases fuel with
      | zero => simp at hf
      | succ f =>
        rw [List.cons_append, parseValue.eq_def]
        simp [eat]
    | false =>
      rw [show printJson (Json.bool false) = ['f', 'a', 'l', 's', 'e'] from by
        simp [printJson]] at hf ⊢
      cases fuel with
      | zero => simp at hf
      | succ f =>
        rw [List.cons_append, parseValue.eq_def]
        simp [eat]
  | num i =>
    cases i with
    | ofNat n =>
      rw [show printJson (Json.num (Int.ofNat n)) = printNat n from by
        simp [printJson, printInt]] at hf ⊢
      obtain ⟨c, t, hct, hcd⟩ := printNat_head n
      obtain ⟨d1, d2, d3, d4, d5, d6, d7⟩ := isDigit_not_special c hcd
      rw [hct] at hf ⊢
      cases fuel with
      | zero => simp at hf
      | succ f =>
        rw [List.cons_append, parseValue.eq_def]
        simp [d1, d2, d3, d4, d5, d6, d7, hcd]
        rw [← List.cons_append, ← hct, parseNatNum_printNat n rest hr]
    | negSucc m =>
      rw [show printJson (Json.num (Int.negSucc m)) = '-' :: printNat (m + 1) from by
        simp [printJson, printInt]] at hf ⊢
      cases fuel with
      | zero => simp at hf
      | succ f =>
        rw [List.cons_append, parseValue.eq_def]
        simp [(by decide : (('-' : Char) = 'n') = False),
          (by decide : (('-' : Char) = 't') = False),
          (by decide : (('-' : Char) = 'f') = False),
          (by decide : (('-' : Char) = quoteC) = False)]
        rw [parseNatNum_printNat (m + 1) rest hr]
        simp [Int.negSucc_coe]
  | str s =>
    rw [show printJson (Json.str s) = quoteC :: (escList s.data ++ [quoteC]) from by
      simp [printJson]] at hf ⊢
    cases fuel with
    | zero => simp at hf
    | succ f =>
      rw [List.cons_append, parseValue.eq_def]
      simp only [List.append_assoc, List.singleton_append]
      simp [(by decide : (quoteC = 'n') = False), (by decide : (quoteC = 't') = False),
        (by decide : (quoteC = 'f') = False), parseStrBody_escList s.data rest, mk_data]
  | arr xs =>
    cases xs with
    | nil =>
      rw [show printJson (Json.arr []) = ['[', ']'] from by simp [printJson]] at hf ⊢
      cases fuel with
      | zero => simp at hf
      | succ f =>
        rw [List.cons_append, parseValue.eq_def]
        simp [(by decide : (('[' : Char) = 'n') = False),
          (by decide : (('[' : Char) = 't') = False),
          (by decide : (('[' : Char) = 'f') = False),
          (by decide : (('[' : Char) = quoteC) = False),
          (by decide : (('[' : Char) = '-') = False)]
    | cons x xs =>
      rw [show printJson (Json.arr (x :: xs)) = '[' :: (printArrItems x xs ++ [']']) from by
        simp [printJson]] at hf ⊢
      obtain ⟨c, t, hct, hcne⟩ := printArrItems_head x xs
      cases fuel with
      | zero =>
        simp at hf
      | succ f =>
        have htail : (printArrItems x xs ++ [']']) ++ rest = c :: (t ++ ']' :: rest) := by
          rw [List.append_assoc, List.singleton_append, hct, List.cons_append]
        have hback : c :: (t ++ ']' :: rest) = printArrItems x xs ++ ']' :: rest := by
          rw [hct, List.cons_append]
        have hlen : (printArrItems x xs).length + 1 ≤ f := by
          simp [List.length_append] at hf
          omega
        rw [List.cons_append, htail, parseValue.eq_def]
        simp [(by decide : (('[' : Char) = 'n') = False),
          (by decide : (('[' : Char) = 't') = False),
          (by decide : (('[' : Char) = 'f') = False),
          (by decide : (('[' : Char) = quoteC) = False),
          (by decide : (('[' : Char) = '-') = False), hcne]
        rw [hback, parse_printArr x xs f rest hlen]
  | obj kvs =>
    cases kvs with
    | nil =>
      rw [show printJson (Json.obj []) = [lcurlC, rcurlC] from by simp [printJson]] at hf ⊢
      cases fuel with
      | zero => simp at hf
      | succ f =>
        rw [List.cons_append, parseValue.eq_def]
        simp [(by decide : (lcurlC = 'n') = False), (by decide : (lcurlC = 't') = False),
          (by decide : (lcurlC = 'f') = False), (by decide : (lcurlC = quoteC) = False),
          (by decide : (lcurlC = '-') = False), (by decide : (lcurlC = '[') = False)]
    | cons kv kvs =>
      rw [show printJson (Json.obj (kv :: kvs))
          = lcurlC :: (printObjItems kv kvs ++ [rcurlC]) from by
        simp [printJson]] at hf ⊢
      obtain ⟨t, hct⟩ := printObjItems_head kv kvs
      cases fuel with
      | zero =>
        simp at hf
      | succ f =>
        have htail : (printObjItems kv kvs ++ [rcurlC]) ++ rest
            = quoteC :: (t ++ rcurlC :: rest) := by
          rw [List.append_assoc, List.singleton_append, hct, List.cons_append]
        have hback : quoteC :: (t ++ rcurlC :: rest)
            = printObjItems kv kvs ++ rcurlC :: rest := by
          rw [hct, List.cons_append]
        have hlen : (printObjItems kv kvs).length + 1 ≤ f := by
          simp [List.length_append] at hf
          omega
        rw [List.cons_append, htail, parseValue.eq_def]
        simp [(by decide : (lcurlC = 'n') = False), (by decide : (lcurlC = 't') = False),
          (by decide : (lcurlC = 'f') = False), (by decide : (lcurlC = quoteC) = False),
          (by decide : (lcurlC = '-') = False), (by decide : (lcurlC = '[') = False),
          (by decide : (quoteC = rcurlC) = False)]
        rw [hback, show parseObjItems f (printObjItems kv kvs ++ rcurlC :: rest)
            = some (kv :: kvs, rest) from parse_printObj kv.1 kv.2 kvs f rest hlen]
termination_by sizeOf v
decreasing_by
  all_goals
    subst_vars
    try casesm* _ × _
    simp_wf <;> omega

theorem parse_printArr (x : Json) (xs : List Json) (fuel : Nat) (rest : List Char)
    (hf : (printArrItems x xs).length + 1 ≤ fuel) :
    parseArrItems fuel (printArrItems x xs ++ ']' :: rest) = some (x :: xs, rest) := by
  cases fuel with
  | zero => omega
  | succ f =>
    cases xs with
    | nil =>
      rw [show printArrItems x [] = printJson x from by simp [printArrItems]] at hf ⊢
      have hv := parse_print x f (']' :: rest)
        (by simp at hf; omega) (noDigit_cons ']' rest (by decide))
      rw [parseArrItems.eq_def]
      simp [hv]
    | cons y ys =>
      rw [show printArrItems x (y :: ys) = printJson x ++ ',' :: printArrItems y ys from by
        simp [printArrItems]] at hf ⊢
      have hlenx : (printJson x).length ≤ f := by
        simp [List.length_append] at hf
        omega
      have hleny : (printArrItems y ys).length + 1 ≤ f := by
        simp [List.length_append] at hf
        omega
      have hv := parse_print x f (',' :: (printArrItems y ys ++ ']' :: rest))
        hlenx (noDigit_cons ',' _ (by decide))
      rw [parseArrItems.eq_def]
      rw [List.append_assoc, List.cons_append]
      simp [hv, (by decide : ((',' : Char) = ']') = False)]
      rw [parse_printArr y ys f rest hleny]
termination_by 1 + sizeOf x + sizeOf xs
decreasing_by
  all_goals
    subst_vars
    try casesm* _ × _
    simp_wf <;> omega

theorem parse_printObj (k : String) (v : Json) (kvs : List (String × Json)) (fuel : Nat)
    (rest : List Char) (hf : (printObjItems (k, v) kvs).length + 1 ≤ fuel) :
    parseObjItems fuel (printObjItems (k, v) kvs ++ rcurlC :: rest)
      = some ((k, v) :: kvs, rest) := by
  cases fuel with
  | zero => omega
  | succ f =>
    cases kvs with
    | nil =>
      have hlenv : (printJson v).length ≤ f := by
        simp [printObjItems, printKV, List.length_append] at hf
        omega
      have hv := parse_print v f (rcurlC :: rest) hlenv (noDigit_cons rcurlC rest (by decide))
      rw [parseObjItems.eq_def]
      simp only [printObjItems, printKV, List.cons_append, List.append_assoc]
      simp [parseStrBody_escList, hv, mk_data]
    | cons kv2 kvs2 =>
      have hlenv : (printJson v).length ≤ f := by
        simp [printObjItems, printKV, List.length_append] at hf
        omega
      have hleny : (printObjItems kv2 kvs2).length + 1 ≤ f := by
        simp [printObjItems, printKV, List.length_append] at hf
        omega
      have hv := parse_print v f (',' :: (printObjItems kv2 kvs2 ++ rcurlC :: rest))
        hlenv (noDigit_cons ',' _ (by decide))
      rw [parseObjItems.eq_def]
      simp only [printObjItems, printKV, List.cons_append, List.append_assoc]
      simp [parseStrBody_escList, hv, mk_data,
        (by decide : ((',' : Char) = rcurlC) = False)]
      rw [show parseObjItems f (printObjItems kv2 kvs2 ++ rcurlC :: rest)
          = some (kv2 :: kvs2, rest) from parse_printObj kv2.1 kv2.2 kvs2 f rest hleny]
termination_by 1 + sizeOf v + sizeOf kvs
decreasing_by
  all_goals
    subst_vars
    try casesm* _ × _
    simp_wf <;> omega

end

/-- C9: for every structurally-serializable record and any capability set,
decoding the encoded text yields a value whose data fields are structurally
equal to the original value and whose capability set (prototype) is the one
supplied: `fromJSON caps (getJSON v)` succeeds with exactly `v` as fields
and `caps` as prototype. -/
theorem c9_roundtrip :
    ∀ (Caps : Type) (caps : Caps) (v : Json),
      fromJSON caps (getJSON v) = some { proto := caps, fields := v } := by
  intro Caps caps v
  have h := parse_print v ((printJson v).length + 1) [] (by omega) noDigit_nil
  rw [List.append_nil] at h
  unfold fromJSON getJSON jsonStringify jsonParse
  simp [h]
